import Mathlib

/-!
Shallow embedding of the websocket session actor of `src/server.rs`
(`MyWebSocket`, its heartbeat closure, `Actor::started` and
`StreamHandler::handle`), together with a model of the parts of its
environment that the handler observes: the Redis store (scalar `GET`
and `LRANGE key 0 -1`) and `serde_json` serialization of the
`AnimationMetadata` record.

Time is modelled as a natural number of seconds (`Instant` readings);
a panic of an `.expect(msg)` call is modelled as `Except.error msg`.
-/

/-- `HEARTBEAT_INTERVAL: Duration = Duration::from_secs(5)` — how often
heartbeat pings are sent, in seconds. -/
def HEARTBEAT_INTERVAL : Nat := 5

/-- `CLIENT_TIMEOUT: Duration = Duration::from_secs(10)` — how long before
lack of client response causes a timeout, in seconds. -/
def CLIENT_TIMEOUT : Nat := 10

/-- The record shape `struct AnimationMetadata { name: String, repeat: i32,
text: Option<String> }`.  The `repeat` field is spelled `repeat_` because
`repeat` is a reserved word in Lean. -/
structure AnimationMetadata where
  name : String
  repeat_ : Int
  text : Option String
deriving DecidableEq

/-- One lowercase hexadecimal digit, as emitted by serde_json in
`\u00XX` escapes. -/
def hexDigit (n : Nat) : Char :=
  if n < 10 then Char.ofNat (48 + n) else Char.ofNat (87 + n)

/-- serde_json's escaping of a single character inside a JSON string
literal: `"` and `\` get a backslash, the five named control escapes are
used where they exist, all other control characters become `\u00XX`,
everything else is passed through. -/
def escapeChar (c : Char) : String :=
  if c = '"' then "\\\""
  else if c = '\\' then "\\\\"
  else if c = Char.ofNat 8 then "\\b"
  else if c = Char.ofNat 12 then "\\f"
  else if c = '\n' then "\\n"
  else if c = '\r' then "\\r"
  else if c = '\t' then "\\t"
  else if c.toNat < 32 then
    "\\u00" ++ String.singleton (hexDigit (c.toNat / 16))
      ++ String.singleton (hexDigit (c.toNat % 16))
  else String.singleton c

/-- A JSON string literal for `s` (serde_json's `String` serialization). -/
def jsonString (s : String) : String :=
  "\"" ++ String.join (s.data.map escapeChar) ++ "\""

/-- serde_json's serialization of one `AnimationMetadata` value: fields in
declaration order, `None` rendered as `null`. -/
def animToJson (a : AnimationMetadata) : String :=
  "\x7b\"name\":" ++ jsonString a.name
    ++ ",\"repeat\":" ++ toString a.repeat_
    ++ ",\"text\":" ++ (match a.text with
        | none => "null"
        | some s => jsonString s)
    ++ "\x7d"

/-- serde_json's serialization of `Vec<AnimationMetadata>`. -/
def animListToJson (l : List AnimationMetadata) : String :=
  "[" ++ String.intercalate "," (l.map animToJson) ++ "]"

/-- The Redis store visible through one connection: `GET key` (absent key
makes the typed `get::<&str, String>` fail, hence `Option`) and
`LRANGE key 0 -1` (absent key yields the empty list). -/
structure Store where
  scalar : String → Option String
  list : String → List String

/-- Inbound websocket messages, as in the `ws::Message` variants the
handler matches on; `Other` stands for the variants caught by the final
wildcard arm (`Continuation`, `Nop`).  Byte payloads are modelled as
strings, close reasons as an optional opaque string. -/
inductive WsMessage where
  | Ping (payload : String)
  | Pong (payload : String)
  | Text (text : String)
  | Binary (payload : String)
  | Close (reason : Option String)
  | Other
deriving DecidableEq

/-- The outgoing effects the handler can emit on its context:
`ctx.pong`, `ctx.text`, `ctx.binary`, `ctx.close`, `ctx.ping`. -/
inductive Output where
  | pong (payload : String)
  | text (t : String)
  | binary (payload : String)
  | close (reason : Option String)
  | ping (payload : String)
deriving DecidableEq

/-- The mutable state of `MyWebSocket` plus a `stopped` flag recording
that `ctx.stop()` has been called (the actix context stops and the actor
is dropped; a stopped actor receives no further frames or ticks). -/
structure SessState where
  hb : Nat
  redis_con : Option Store
  stopped : Bool

/-- `ctx.stop()`: the actor stops; dropping `MyWebSocket` drops (releases)
the Redis connection it owns. -/
def stopActor (s : SessState) : SessState :=
  { s with stopped := true, redis_con := none }

/-- `MyWebSocket::new()`; the `hb: Instant::now()` reading is the clock
value at creation. -/
def newSession (now0 : Nat) : SessState :=
  { hb := now0, redis_con := none, stopped := false }

/-- `text.contains(":")` on the character list of the frame. -/
def hasColon (l : List Char) : Bool :=
  l.contains ':'

/-- The characters of the frame up to and including the first `:`;
`&text[..delimiter_index + 1]` where `delimiter_index = text.find(":")`. -/
def takeThroughColon : List Char → List Char
  | [] => []
  | c :: cs => if c = ':' then [c] else c :: takeThroughColon cs

/-- The parsed command prefix: the substring of the frame from the start
through and including the first `:`. -/
def prefixThroughColon (t : String) : String :=
  String.mk (takeThroughColon t.data)

/-- `value.iter().map(|s| serde_json::from_str(s).expect(..)).collect()`:
deserialize every stored entry, failing as a whole on the first entry that
does not parse.  `fromStr` models `serde_json::from_str::<AnimationMetadata>`. -/
def parseAll (fromStr : String → Option AnimationMetadata) :
    List String → Option (List AnimationMetadata)
  | [] => some []
  | x :: xs =>
    match fromStr x with
    | some a =>
      match parseAll fromStr xs with
      | some rest => some (a :: rest)
      | none => none
    | none => none

/-- One invocation of `StreamHandler::handle` on an inbound item at clock
reading `now`; `none` stands for `Err(ProtocolError)`.  `Except.error msg`
models a panic of `.expect(msg)` inside the handler (no output is emitted
on that path). -/
def handleMessage (fromStr : String → Option AnimationMetadata)
    (s : SessState) (now : Nat) (msg : Option WsMessage) :
    Except String (SessState × List Output) :=
  match msg with
  | some (WsMessage.Ping m) =>
    Except.ok ({ s with hb := now }, [Output.pong m])
  | some (WsMessage.Pong _) =>
    Except.ok ({ s with hb := now }, [])
  | some (WsMessage.Text text) =>
    match s.redis_con with
    | some con =>
      if hasColon text.data then
        let pfx := prefixThroughColon text
        let reids_key := text
        if pfx = "am:" then
          match con.scalar reids_key with
          | some value =>
            Except.ok (s, [Output.text (reids_key ++ "::" ++ value)])
          | none => Except.error "Failed to read data from Redis"
        else if pfx = "amq:" then
          match parseAll fromStr (con.list reids_key) with
          | some values =>
            Except.ok (s, [Output.text (reids_key ++ "::" ++ animListToJson values)])
          | none => Except.error "Failed to parse json string"
        else
          Except.ok (s, [])
      else
        Except.ok (s, [])
    | none =>
      Except.ok (s, [])
  | some (WsMessage.Binary b) =>
    Except.ok (s, [Output.binary b])
  | some (WsMessage.Close reason) =>
    Except.ok (stopActor s, [Output.close reason])
  | some WsMessage.Other =>
    Except.ok (stopActor s, [])
  | none =>
    Except.ok (stopActor s, [])

/-- One firing of the `run_interval` closure of `MyWebSocket::hb` at clock
reading `now`: check staleness first, stop (and send nothing) when stale,
otherwise send `ctx.ping(b"")`. -/
def handleTick (s : SessState) (now : Nat) : SessState × List Output :=
  if now - s.hb > CLIENT_TIMEOUT then (stopActor s, [])
  else (s, [Output.ping ""])

/-- An event delivered to the session's single-threaded context: either an
inbound stream item at clock reading `now`, or a heartbeat-timer tick. -/
inductive Event where
  | inbound (now : Nat) (msg : Option WsMessage)
  | tick (now : Nat)

/-- One scheduler step: a stopped actor receives nothing; otherwise the
event is dispatched to the stream handler or the heartbeat closure. -/
def step (fromStr : String → Option AnimationMetadata)
    (s : SessState) (e : Event) : Except String (SessState × List Output) :=
  if s.stopped then Except.ok (s, [])
  else
    match e with
    | Event.inbound now m => handleMessage fromStr s now m
    | Event.tick now => Except.ok (handleTick s now)

/-- Run the session over a sequence of events, accumulating the outputs
sent to the peer; a panic aborts the run and is reported as the third
component. -/
def run (fromStr : String → Option AnimationMetadata) :
    SessState → List Event → SessState × List Output × Option String
  | s, [] => (s, [], none)
  | s, e :: es =>
    match step fromStr s e with
    | Except.ok (s', out) =>
      let r := run fromStr s' es
      (r.1, out ++ r.2.1, r.2.2)
    | Except.error m => (s, [], some m)

/-- `Actor::started`: start the heartbeat, then open the Redis client and
get a connection, each through `.expect` (modelled by the two `Option`
arguments for the two fallible library calls), storing the connection in
`redis_con` on success. -/
def started (openResult : Option Unit) (conResult : Option Store)
    (s : SessState) : Except String SessState :=
  match openResult with
  | none => Except.error "Failed to connect to Redis"
  | some _ =>
    match conResult with
    | none => Except.error "Failed to get Redis connection"
    | some con => Except.ok { s with redis_con := some con }

/-- A whole session: `started` runs on actor start; if it panics the actor
dies before handling any event, otherwise the event sequence is processed. -/
def runSession (fromStr : String → Option AnimationMetadata)
    (openResult : Option Unit) (conResult : Option Store)
    (now0 : Nat) (events : List Event) :
    SessState × List Output × Option String :=
  match started openResult conResult (newSession now0) with
  | Except.ok s => run fromStr s events
  | Except.error m => (stopActor (newSession now0), [], some m)

/-! ### Concrete fixtures used by the witnesses -/

/-- The stored entry of concrete scenario 2 of the spec. -/
def jsonSquat : String := "\x7b\"name\":\"squat\",\"repeat\":3,\"text\":null\x7d"

/-- The record that `jsonSquat` deserializes to. -/
def animSquat : AnimationMetadata := { name := "squat", repeat_ := 3, text := none }

/-- A store holding `am:user:42 → "Alice"` and the one-entry list at
`amq:playlist:7` (spec scenarios 1 and 2). -/
def store0 : Store :=
  { scalar := fun k => if k = "am:user:42" then some "Alice" else none
    list := fun k => if k = "amq:playlist:7" then [jsonSquat] else [] }

/-- A second store that agrees with `store0` only on the key
`"am:user:42"`. -/
def storeAlt : Store :=
  { scalar := fun k => if k = "am:user:42" then some "Alice" else some "Bob"
    list := fun _ => [] }

/-- A store whose list at `amq:playlist:7` holds an entry that does not
deserialize. -/
def storeBad : Store :=
  { scalar := fun _ => none
    list := fun k => if k = "amq:playlist:7" then ["nonsense"] else [] }

/-- A concrete model of `serde_json::from_str::<AnimationMetadata>`
sufficient for the fixtures: it parses exactly `jsonSquat`. -/
def fromStr0 : String → Option AnimationMetadata :=
  fun s => if s = jsonSquat then some animSquat else none

/-- An active session connected to `store0`, last liveness at time 0. -/
def sess0 : SessState := { hb := 0, redis_con := some store0, stopped := false }

/-- An active session connected to `storeBad`. -/
def sessBad : SessState := { hb := 0, redis_con := some storeBad, stopped := false }

/-- An active session whose store handle is absent. -/
def sessNoCon : SessState := { hb := 0, redis_con := none, stopped := false }

/-! ### Helper lemmas -/

/-- A stopped actor receives no further events: running it produces no
outputs and does not change state. -/
theorem run_stopped (fromStr : String → Option AnimationMetadata)
    {s : SessState} (hs : s.stopped = true) :
    ∀ evs, run fromStr s evs = (s, [], none) := by
  intro evs
  induction evs with
  | nil => rfl
  | cons e es ih => simp [run, step, hs, ih]

/-- A colon in the parsed prefix comes from a colon in the frame. -/
theorem mem_of_mem_takeThroughColon {l : List Char}
    (h : ':' ∈ takeThroughColon l) : ':' ∈ l := by
  induction l with
  | nil => simp [takeThroughColon] at h
  | cons c cs ih =>
    by_cases hc : c = ':'
    · subst hc; simp
    · simp [takeThroughColon, hc] at h
      rcases h with h | h
      · exact absurd h.symm hc
      · exact List.mem_cons_of_mem _ (ih h)

/-- If the parsed prefix is a string containing a colon, the frame
contains a colon. -/
theorem hasColon_of_prefixThroughColon {t p : String}
    (hp : prefixThroughColon t = p) (hmem : ':' ∈ p.data) :
    hasColon t.data = true := by
  have hdata : takeThroughColon t.data = p.data := congrArg String.data hp
  have : ':' ∈ takeThroughColon t.data := hdata ▸ hmem
  have hm : ':' ∈ t.data := mem_of_mem_takeThroughColon this
  simpa [hasColon] using hm

/-- `takeThroughColon` keeps exactly the characters up to and including
the first colon. -/
theorem takeThroughColon_eq_take {l : List Char} {i : Nat} (hi : i < l.length)
    (hcolon : l.get ⟨i, hi⟩ = ':')
    (hbefore : ∀ j (hj : j < i), l.get ⟨j, Nat.lt_trans hj hi⟩ ≠ ':') :
    takeThroughColon l = l.take (i + 1) := by
  induction l generalizing i with
  | nil => exact absurd hi (Nat.not_lt_zero i)
  | cons c cs ih =>
    cases i with
    | zero =>
      simp only [List.get] at hcolon
      simp [takeThroughColon, hcolon]
    | succ n =>
      have hc : c ≠ ':' := by
        have h0 := hbefore 0 (Nat.succ_pos n)
        simpa using h0
      have hn : n < cs.length := Nat.lt_of_succ_lt_succ hi
      have hcolon' : cs.get ⟨n, hn⟩ = ':' := by simpa using hcolon
      have hbefore' : ∀ j (hj : j < n), cs.get ⟨j, Nat.lt_trans hj hn⟩ ≠ ':' := by
        intro j hj
        have := hbefore (j + 1) (Nat.succ_lt_succ hj)
        simpa using this
      simp [takeThroughColon, hc, ih hn hcolon' hbefore']

/-- What a successful `parseAll` returns: one parsed record per stored
entry, in the store's order. -/
theorem parseAll_eq_some {fromStr : String → Option AnimationMetadata}
    {l : List String} {vs : List AnimationMetadata}
    (h : parseAll fromStr l = some vs) :
    vs.length = l.length ∧
      ∀ i (hi : i < l.length) (hi' : i < vs.length),
        fromStr (l.get ⟨i, hi⟩) = some (vs.get ⟨i, hi'⟩) := by
  induction l generalizing vs with
  | nil =>
    simp [parseAll] at h
    subst h
    exact ⟨rfl, fun i hi => absurd hi (Nat.not_lt_zero i)⟩
  | cons x xs ih =>
    simp only [parseAll] at h
    cases hx : fromStr x with
    | none => rw [hx] at h; exact absurd h (by simp)
    | some a =>
      rw [hx] at h
      cases hxs : parseAll fromStr xs with
      | none => rw [hxs] at h; exact absurd h (by simp)
      | some rest =>
        rw [hxs] at h
        simp at h
        subst h
        obtain ⟨hlen, hget⟩ := ih hxs
        refine ⟨by simp [hlen], ?_⟩
        intro i hi hi'
        cases i with
        | zero => simpa using hx
        | succ n =>
          have hn : n < xs.length := Nat.lt_of_succ_lt_succ hi
          have hn' : n < rest.length := Nat.lt_of_succ_lt_succ hi'
          simpa using hget n hn hn'

/-- If any stored entry fails to deserialize, the whole `parseAll` fails. -/
theorem parseAll_eq_none {fromStr : String → Option AnimationMetadata}
    {l : List String} {e : String} (he : e ∈ l) (hfail : fromStr e = none) :
    parseAll fromStr l = none := by
  induction l with
  | nil => exact absurd he (List.not_mem_nil e)
  | cons x xs ih =>
    rcases List.mem_cons.mp he with hex | hexs
    · subst hex
      simp [parseAll, hfail]
    · simp only [parseAll]
      cases hx : fromStr x with
      | none => rfl
      | some a => rw [ih hexs]

/-! ### Claim theorems -/

/-- C1: for an inbound text frame whose parsed prefix is `am:` and whose
full text is a key with scalar value `v` in the store, the handler sends
exactly one outgoing text frame, equal to the request text, `::`, then
`v`. -/
theorem am_request_sends_one_frame (fromStr : String → Option AnimationMetadata)
    (s : SessState) (con : Store) (t v : String) (now : Nat)
    (hs : s.stopped = false) (hcon : s.redis_con = some con)
    (hpfx : prefixThroughColon t = "am:") (hv : con.scalar t = some v) :
    step fromStr s (Event.inbound now (some (WsMessage.Text t))) =
      Except.ok (s, [Output.text (t ++ "::" ++ v)]) := by
  have hcolon : hasColon t.data = true :=
    hasColon_of_prefixThroughColon hpfx (by decide)
  simp [step, hs, handleMessage, hcon, hcolon, hpfx, hv]

theorem am_request_sends_one_frame_witness :
    prefixThroughColon "am:user:42" = "am:" ∧
    store0.scalar "am:user:42" = some "Alice" ∧
    step fromStr0 sess0 (Event.inbound 1 (some (WsMessage.Text "am:user:42"))) =
      Except.ok (sess0, [Output.text ("am:user:42" ++ "::" ++ "Alice")]) :=
  ⟨by decide, rfl,
    am_request_sends_one_frame fromStr0 sess0 store0 "am:user:42" "Alice" 1
      rfl rfl (by decide) rfl⟩

/-- C2: for an inbound text frame whose parsed prefix is `amq:` and whose
stored list entries all deserialize, the handler sends exactly one
outgoing text frame equal to the request text, `::`, and the re-serialized
list; the response entries are in the store's order and their count equals
the store's entry count. -/
theorem amq_request_sends_full_list (fromStr : String → Option AnimationMetadata)
    (s : SessState) (con : Store) (t : String)
    (vs : List AnimationMetadata) (now : Nat)
    (hs : s.stopped = false) (hcon : s.redis_con = some con)
    (hpfx : prefixThroughColon t = "amq:")
    (hparse : parseAll fromStr (con.list t) = some vs) :
    step fromStr s (Event.inbound now (some (WsMessage.Text t))) =
      Except.ok (s, [Output.text (t ++ "::" ++ animListToJson vs)]) ∧
    vs.length = (con.list t).length ∧
    ∀ i (hi : i < (con.list t).length) (hi' : i < vs.length),
      fromStr ((con.list t).get ⟨i, hi⟩) = some (vs.get ⟨i, hi'⟩) := by
  have hcolon : hasColon t.data = true :=
    hasColon_of_prefixThroughColon hpfx (by decide)
  obtain ⟨hlen, hget⟩ := parseAll_eq_some hparse
  refine ⟨?_, hlen, hget⟩
  simp [step, hs, handleMessage, hcon, hcolon, hpfx, hparse]

theorem amq_request_sends_full_list_witness :
    prefixThroughColon "amq:playlist:7" = "amq:" ∧
    store0.list "amq:playlist:7" = [jsonSquat] ∧
    parseAll fromStr0 (store0.list "amq:playlist:7") = some [animSquat] ∧
    step fromStr0 sess0 (Event.inbound 1 (some (WsMessage.Text "amq:playlist:7"))) =
      Except.ok (sess0, [Output.text ("amq:playlist:7" ++ "::" ++ animListToJson [animSquat])]) ∧
    animListToJson [animSquat] =
      "[\x7b\"name\":\"squat\",\"repeat\":3,\"text\":null\x7d]" :=
  ⟨by decide, rfl, by decide,
    (amq_request_sends_full_list fromStr0 sess0 store0 "amq:playlist:7"
      [animSquat] 1 rfl rfl (by decide) (by decide)).1,
    by decide⟩

/-- C3: on each heartbeat tick the staleness check runs first: when the
time since the last liveness update exceeds `CLIENT_TIMEOUT`, the session
stops (releasing the store handle) and no probe is sent then or on any
later event; otherwise exactly one liveness probe is emitted. -/
theorem heartbeat_tick_checks_staleness (fromStr : String → Option AnimationMetadata)
    (s : SessState) (now : Nat) (hs : s.stopped = false) :
    (now - s.hb > CLIENT_TIMEOUT →
      step fromStr s (Event.tick now) = Except.ok (stopActor s, []) ∧
      (stopActor s).stopped = true ∧ (stopActor s).redis_con = none ∧
      ∀ evs, run fromStr (stopActor s) evs = (stopActor s, [], none)) ∧
    (¬ now - s.hb > CLIENT_TIMEOUT →
      step fromStr s (Event.tick now) = Except.ok (s, [Output.ping ""])) := by
  constructor
  · intro h
    refine ⟨by simp [step, hs, handleTick, h], rfl, rfl, run_stopped fromStr rfl⟩
  · intro h
    simp [step, hs, handleTick, h]

theorem heartbeat_tick_checks_staleness_witness :
    sess0.stopped = false ∧ (11 - sess0.hb > CLIENT_TIMEOUT) ∧
    ¬ (5 - sess0.hb > CLIENT_TIMEOUT) ∧
    step fromStr0 sess0 (Event.tick 11) = Except.ok (stopActor sess0, []) ∧
    run fromStr0 (stopActor sess0)
        [Event.tick 16, Event.inbound 17 (some (WsMessage.Text "am:user:42"))] =
      (stopActor sess0, [], none) ∧
    step fromStr0 sess0 (Event.tick 5) = Except.ok (sess0, [Output.ping ""]) :=
  have h11 := heartbeat_tick_checks_staleness fromStr0 sess0 11 rfl
  have h5 := heartbeat_tick_checks_staleness fromStr0 sess0 5 rfl
  ⟨rfl, by decide, by decide,
    (h11.1 (by decide)).1,
    (h11.1 (by decide)).2.2.2 _,
    h5.2 (by decide)⟩

/-- C4: for a text frame whose first colon sits at index `i`, the parsed
prefix is the substring from the start through and including that colon;
and the store is consulted only at the full original frame text: two
stores that agree at key `t` (scalar and list) make the handler emit the
same outputs and fail the same way. -/
theorem parsed_prefix_and_full_key (fromStr : String → Option AnimationMetadata)
    (t : String) (i : Nat) (hi : i < t.data.length)
    (hcolon : t.data.get ⟨i, hi⟩ = ':')
    (hfirst : ∀ j (hj : j < i), t.data.get ⟨j, Nat.lt_trans hj hi⟩ ≠ ':') :
    prefixThroughColon t = String.mk (t.data.take (i + 1)) ∧
    ∀ (s1 s2 : Store) (hb now : Nat),
      s1.scalar t = s2.scalar t → s1.list t = s2.list t →
      Except.map Prod.snd
          (handleMessage fromStr ⟨hb, some s1, false⟩ now (some (WsMessage.Text t))) =
        Except.map Prod.snd
          (handleMessage fromStr ⟨hb, some s2, false⟩ now (some (WsMessage.Text t))) := by
  constructor
  · exact congrArg String.mk (takeThroughColon_eq_take hi hcolon hfirst)
  · intro s1 s2 hb now h1 h2
    simp only [handleMessage]
    by_cases hc : hasColon t.data
    · simp only [hc, if_true]
      by_cases ham : prefixThroughColon t = "am:"
      · simp only [ham, if_true, h1]
        cases s2.scalar t <;> simp [Except.map]
      · by_cases hamq : prefixThroughColon t = "amq:"
        · simp only [ham, if_false, hamq, if_true, h2]
          cases parseAll fromStr (s2.list t) <;> simp [Except.map]
        · simp [ham, hamq, Except.map]
    · simp [hc, Except.map]

theorem parsed_prefix_and_full_key_witness :
    prefixThroughColon "am:user:42" = String.mk ("am:user:42".data.take 3) ∧
    store0.scalar "am:user:42" = storeAlt.scalar "am:user:42" ∧
    store0.list "am:user:42" = storeAlt.list "am:user:42" ∧
    Except.map Prod.snd
        (handleMessage fromStr0 ⟨0, some store0, false⟩ 1 (some (WsMessage.Text "am:user:42"))) =
      Except.map Prod.snd
        (handleMessage fromStr0 ⟨0, some storeAlt, false⟩ 1 (some (WsMessage.Text "am:user:42"))) :=
  have h := parsed_prefix_and_full_key fromStr0 "am:user:42" 2 (by decide)
    (by decide) (by decide)
  ⟨h.1, rfl, rfl, h.2 store0 storeAlt 0 1 rfl rfl⟩

/-- C5: a text frame without a colon, or whose parsed prefix is neither
`am:` nor `amq:`, produces no outgoing frame and leaves the session state
unchanged (still active); the frame is only logged. -/
theorem unrecognized_text_is_ignored (fromStr : String → Option AnimationMetadata)
    (s : SessState) (t : String) (now : Nat) (hs : s.stopped = false)
    (h : hasColon t.data = false ∨
      (prefixThroughColon t ≠ "am:" ∧ prefixThroughColon t ≠ "amq:")) :
    step fromStr s (Event.inbound now (some (WsMessage.Text t))) =
      Except.ok (s, []) := by
  simp only [step, hs, if_false, Bool.false_eq_true, handleMessage]
  cases hcon : s.redis_con with
  | none => rfl
  | some con =>
    by_cases hc : hasColon t.data
    · rcases h with h | ⟨h1, h2⟩
      · rw [h] at hc; exact absurd hc (by simp)
      · simp [hc, h1, h2]
    · simp [hc]

theorem unrecognized_text_is_ignored_witness :
    hasColon "xyz:foo".data = true ∧
    prefixThroughColon "xyz:foo" ≠ "am:" ∧ prefixThroughColon "xyz:foo" ≠ "amq:" ∧
    step fromStr0 sess0 (Event.inbound 1 (some (WsMessage.Text "xyz:foo"))) =
      Except.ok (sess0, []) ∧
    hasColon "nodelimiter".data = false ∧
    step fromStr0 sess0 (Event.inbound 1 (some (WsMessage.Text "nodelimiter"))) =
      Except.ok (sess0, []) :=
  ⟨by decide, by decide, by decide,
    unrecognized_text_is_ignored fromStr0 sess0 "xyz:foo" 1 rfl
      (Or.inr ⟨by decide, by decide⟩),
    by decide,
    unrecognized_text_is_ignored fromStr0 sess0 "nodelimiter" 1 rfl
      (Or.inl (by decide))⟩

/-- C6: an inbound ping or pong sets `hb` to the current instant and
changes nothing else (a ping additionally answers with a pong); inbound
text and binary frames leave `hb` unchanged. -/
theorem liveness_update_rules (fromStr : String → Option AnimationMetadata)
    (s : SessState) (now : Nat) (hs : s.stopped = false) :
    (∀ m, step fromStr s (Event.inbound now (some (WsMessage.Ping m))) =
      Except.ok ({ s with hb := now }, [Output.pong m])) ∧
    (∀ m, step fromStr s (Event.inbound now (some (WsMessage.Pong m))) =
      Except.ok ({ s with hb := now }, [])) ∧
    (∀ t r, step fromStr s (Event.inbound now (some (WsMessage.Text t))) =
        Except.ok r → r.1.hb = s.hb) ∧
    (∀ b, step fromStr s (Event.inbound now (some (WsMessage.Binary b))) =
      Except.ok (s, [Output.binary b])) := by
  refine ⟨fun m => by simp [step, hs, handleMessage],
    fun m => by simp [step, hs, handleMessage],
    ?_,
    fun b => by simp [step, hs, handleMessage]⟩
  intro t r h
  simp only [step, hs, if_false, Bool.false_eq_true, handleMessage] at h
  cases hcon : s.redis_con with
  | none => rw [hcon] at h; cases h; rfl
  | some con =>
    rw [hcon] at h
    by_cases hc : hasColon t.data
    · simp only [hc, if_true] at h
      by_cases ham : prefixThroughColon t = "am:"
      · simp only [ham, if_true] at h
        cases hv : con.scalar t <;> rw [hv] at h
        · cases h
        · cases h; rfl
      · by_cases hamq : prefixThroughColon t = "amq:"
        · simp only [ham, if_false, hamq, if_true] at h
          cases hv : parseAll fromStr (con.list t) <;> rw [hv] at h
          · cases h
          · cases h; rfl
        · simp only [ham, hamq, if_false] at h
          cases h; rfl
    · simp only [hc, if_false] at h
      cases h; rfl

theorem liveness_update_rules_witness :
    step fromStr0 sess0 (Event.inbound 7 (some (WsMessage.Ping "x"))) =
      Except.ok ({ sess0 with hb := 7 }, [Output.pong "x"]) ∧
    step fromStr0 sess0 (Event.inbound 7 (some (WsMessage.Pong ""))) =
      Except.ok ({ sess0 with hb := 7 }, []) ∧
    step fromStr0 sess0 (Event.inbound 7 (some (WsMessage.Binary "b"))) =
      Except.ok (sess0, [Output.binary "b"]) :=
  have h := liveness_update_rules fromStr0 sess0 7 rfl
  ⟨h.1 "x", h.2.1 "", h.2.2.2 "b"⟩

/-- C7: an inbound close frame makes the session echo a close frame with
the same optional reason and stop; afterwards no event is processed: no
output is produced and the state never changes again. -/
theorem close_frame_terminates (fromStr : String → Option AnimationMetadata)
    (s : SessState) (r : Option String) (now : Nat) (hs : s.stopped = false) :
    step fromStr s (Event.inbound now (some (WsMessage.Close r))) =
      Except.ok (stopActor s, [Output.close r]) ∧
    (stopActor s).stopped = true ∧
    ∀ evs, run fromStr (stopActor s) evs = (stopActor s, [], none) := by
  exact ⟨by simp [step, hs, handleMessage], rfl, run_stopped fromStr rfl⟩

theorem close_frame_terminates_witness :
    step fromStr0 sess0 (Event.inbound 2 (some (WsMessage.Close (some "bye")))) =
      Except.ok (stopActor sess0, [Output.close (some "bye")]) ∧
    run fromStr0 (stopActor sess0)
        [Event.inbound 3 (some (WsMessage.Text "am:user:42"))] =
      (stopActor sess0, [], none) :=
  have h := close_frame_terminates fromStr0 sess0 (some "bye") 2 rfl
  ⟨h.1, h.2.2 _⟩

/-- C8: during an `amq:` command, one stored entry that fails to
deserialize makes the whole list operation fail (the `.expect` panics):
the handler returns the panic and emits no outgoing frame at all, partial
or otherwise. -/
theorem amq_entry_failure_aborts (fromStr : String → Option AnimationMetadata)
    (s : SessState) (con : Store) (t e : String) (now : Nat)
    (hs : s.stopped = false) (hcon : s.redis_con = some con)
    (hpfx : prefixThroughColon t = "amq:")
    (he : e ∈ con.list t) (hfail : fromStr e = none) :
    step fromStr s (Event.inbound now (some (WsMessage.Text t))) =
      Except.error "Failed to parse json string" := by
  have hcolon : hasColon t.data = true :=
    hasColon_of_prefixThroughColon hpfx (by decide)
  have hparse := parseAll_eq_none he hfail
  simp [step, hs, handleMessage, hcon, hcolon, hpfx, hparse]

theorem amq_entry_failure_aborts_witness :
    "nonsense" ∈ storeBad.list "amq:playlist:7" ∧
    fromStr0 "nonsense" = none ∧
    step fromStr0 sessBad (Event.inbound 1 (some (WsMessage.Text "amq:playlist:7"))) =
      Except.error "Failed to parse json string" :=
  ⟨by decide, by decide,
    amq_entry_failure_aborts fromStr0 sessBad storeBad "amq:playlist:7"
      "nonsense" 1 rfl rfl (by decide) (by decide) (by decide)⟩

/-- C9: when opening the store client or getting the store connection at
actor start fails, the `.expect` panic kills the session before it is
active: over any event sequence it emits no output, processes nothing,
and ends terminated with the panic recorded. -/
theorem store_connect_failure_fails_closed (fromStr : String → Option AnimationMetadata)
    (openResult : Option Unit) (conResult : Option Store)
    (now0 : Nat) (events : List Event)
    (h : openResult = none ∨ conResult = none) :
    (runSession fromStr openResult conResult now0 events).1.stopped = true ∧
    (runSession fromStr openResult conResult now0 events).2.1 = [] ∧
    (runSession fromStr openResult conResult now0 events).2.2.isSome = true := by
  rcases h with h | h
  · subst h
    simp [runSession, started, stopActor]
  · subst h
    cases openResult with
    | none => simp [runSession, started, stopActor]
    | some u => simp [runSession, started, stopActor]

theorem store_connect_failure_fails_closed_witness :
    ((some () : Option Unit) = none ∨ (none : Option Store) = none) ∧
    (runSession fromStr0 (some ()) none 0
        [Event.inbound 1 (some (WsMessage.Text "am:user:42")), Event.tick 5]).1.stopped = true ∧
    (runSession fromStr0 (some ()) none 0
        [Event.inbound 1 (some (WsMessage.Text "am:user:42")), Event.tick 5]).2.1 = [] :=
  have h := store_connect_failure_fails_closed fromStr0 (some ()) none 0
    [Event.inbound 1 (some (WsMessage.Text "am:user:42")), Event.tick 5]
    (Or.inr rfl)
  ⟨Or.inr rfl, h.1, h.2.1⟩

/-- C10: when the store handle is absent, a text frame is only logged: no
store operation, no outgoing frame, and the session state is unchanged,
so the session keeps running. -/
theorem text_without_store_is_noop (fromStr : String → Option AnimationMetadata)
    (s : SessState) (t : String) (now : Nat)
    (hs : s.stopped = false) (hcon : s.redis_con = none) :
    step fromStr s (Event.inbound now (some (WsMessage.Text t))) =
      Except.ok (s, []) := by
  simp [step, hs, handleMessage, hcon]

theorem text_without_store_is_noop_witness :
    sessNoCon.redis_con = none ∧ sessNoCon.stopped = false ∧
    step fromStr0 sessNoCon (Event.inbound 1 (some (WsMessage.Text "am:user:42"))) =
      Except.ok (sessNoCon, []) :=
  ⟨rfl, rfl,
    text_without_store_is_noop fromStr0 sessNoCon "am:user:42" 1 rfl rfl⟩
